import Mathlib

/-!
Verification of the CinemaSync signaling server core
(`src/app/main.py`) against its natural-language specification.

The shared mutable state of the server is three Python dicts:
`rooms` (room_id to a record holding the member list `users`),
`sid_to_user` (connection id to user id) and `sid_to_room`
(connection id to room id).  We embed each dict as an association
list over `String` keys, with helper operations `dget` (dict lookup,
`d.get(k)`), `dset` (dict assignment `d[k] = v`) and `derase`
(dict removal, `d.pop(k, None)` discarding the value).  Python dict
keys are unique; the helpers below preserve that discipline and the
lookup lemmas hold for every association list.

Random identifier generation (`uuid.uuid4()`) is nondeterministic,
so each handler that consumes a generated identifier takes it as an
explicit argument; a trace predicate restricts those arguments to the
values the generator can actually produce (8 uppercase hex characters
for room ids) and, optionally, to collision-free choices.
-/

namespace CinemaSync

/-- Dict lookup, `d.get(k)` / `d[k]`. -/
def dget {α : Type} : List (String × α) → String → Option α
  | [], _ => none
  | (k', v) :: t, k => if k' = k then some v else dget t k

/-- Dict removal, `d.pop(k, None)` with the value discarded. -/
def derase {α : Type} : List (String × α) → String → List (String × α)
  | [], _ => []
  | (k', v) :: t, k => if k' = k then derase t k else (k', v) :: derase t k

/-- Dict assignment, `d[k] = v`: replaces the value when the key is
present (preserving its position), appends otherwise. -/
def dset {α : Type} : List (String × α) → String → α → List (String × α)
  | [], k, v => [(k, v)]
  | (k', v') :: t, k, v => if k' = k then (k, v) :: derase t k else (k', v') :: dset t k v

/-- Maximum room occupancy, `MAX_USERS_PER_ROOM = 3` (main.py line 34). -/
def MAX_USERS_PER_ROOM : Nat := 3

/-- Payloads of the outbound events that the handlers under
verification emit.  Each constructor carries exactly the fields the
Python code puts into the corresponding event dict. -/
inductive Payload where
  | userId (user_id : String)
  | roomCreated (room_id : String)
  | roomJoined (room_id : String) (users : List String)
  | userJoined (user_id : String) (users : List String)
  | userDisconnected (user_id : String)
  | movieControl (action : String) (value : String)
  | errorMsg (message : String)
  deriving DecidableEq

/-- One call of the transport primitive `sio.emit(event, data, to=sid)`:
target connection, event name, payload. -/
structure Emit where
  target : String
  event : String
  data : Payload
  deriving DecidableEq

/-- The three shared in-memory stores (main.py lines 30-32). -/
structure ServerState where
  rooms : List (String × List String)
  sid_to_user : List (String × String)
  sid_to_room : List (String × String)
  deriving DecidableEq

/-- The state before any connection: all three dicts empty. -/
def emptyState : ServerState := ⟨[], [], []⟩

/-- Python `str.strip()`: drop leading and trailing whitespace. -/
def pyStrip (s : String) : String :=
  ⟨((s.data.dropWhile Char.isWhitespace).reverse.dropWhile Char.isWhitespace).reverse⟩

/-- Python `str.upper()` on the ASCII identifiers this server uses. -/
def pyUpper (s : String) : String := ⟨s.data.map Char.toUpper⟩

/-- The single-quote character used in the room-not-found message. -/
def squote : Char := Char.ofNat 39

/-- The message of the room-not-found error reply (main.py line 217). -/
def msgNotFound (room_id : String) : String :=
  "Room " ++ String.mk [squote] ++ room_id ++ String.mk [squote] ++ " does not exist."

/-- Embedding of `_broadcast_to_room` (main.py lines 141-148): send an
event to every user in a room, optionally skipping one sid; no room,
no sends. -/
def _broadcast_to_room (st : ServerState) (room_id : String) (event : String)
    (data : Payload) (skip_sid : Option String) : List Emit :=
  match dget st.rooms room_id with
  | none => []
  | some users => (users.filter (fun s => skip_sid != some s)).map (fun s => ⟨s, event, data⟩)

/-- The old-room teardown shared by `create_room` (lines 193-198) and
`join_room` (lines 232-237): if the room exists, remove the sid from
its member list and delete the room when it becomes empty. -/
def removeFromRoom (rooms : List (String × List String)) (room_id sid : String) :
    List (String × List String) :=
  match dget rooms room_id with
  | none => rooms
  | some us =>
      let us1 := if sid ∈ us then us.erase sid else us
      if us1 = [] then derase rooms room_id else dset rooms room_id us1

/-- Embedding of the `connect` handler (main.py lines 155-160).  The
freshly generated user id (`_generate_user_id()`) is passed in as
`gen_uid`. -/
def connect (st : ServerState) (sid gen_uid : String) : ServerState × List Emit :=
  (⟨st.rooms, dset st.sid_to_user sid gen_uid, st.sid_to_room⟩,
   [⟨sid, "user_id", Payload.userId gen_uid⟩])

/-- Embedding of the `disconnect` handler (main.py lines 163-184).
The user id is captured by the `pop` before any notification is
built; the member list is updated before the broadcast, and the room
is deleted after the broadcast when it has become empty. -/
def disconnect (st : ServerState) (sid : String) : ServerState × List Emit :=
  let user_id := dget st.sid_to_user sid
  let stu := derase st.sid_to_user sid
  let str := derase st.sid_to_room sid
  match dget st.sid_to_room sid with
  | none => (⟨st.rooms, stu, str⟩, [])
  | some room_id =>
      match dget st.rooms room_id with
      | none => (⟨st.rooms, stu, str⟩, [])
      | some users =>
          let users1 := if sid ∈ users then users.erase sid else users
          let rooms1 := dset st.rooms room_id users1
          let emits := _broadcast_to_room ⟨rooms1, stu, str⟩ room_id "user_disconnected"
            (Payload.userDisconnected (user_id.getD "unknown")) none
          let rooms2 := if users1 = [] then derase rooms1 room_id else rooms1
          (⟨rooms2, stu, str⟩, emits)

/-- The old-membership teardown at the top of `create_room` (lines
192-198): `old` is the popped `sid_to_room` association.  The Python
guard `if old_room_id` is string truthiness, hence the condition that
`old_id` differ from the empty string. -/
def oldCleanup (rooms : List (String × List String)) (old : Option String) (sid : String) :
    List (String × List String) :=
  match old with
  | some old_id => if old_id ≠ "" then removeFromRoom rooms old_id sid else rooms
  | none => rooms

/-- The old-membership teardown inside `join_room` (lines 230-237):
as in `create_room` but additionally skipped when the old room is the
one being joined. -/
def oldCleanupJoin (rooms : List (String × List String)) (old : Option String)
    (sid room_id : String) : List (String × List String) :=
  match old with
  | some old_id =>
      if old_id ≠ "" ∧ old_id ≠ room_id then removeFromRoom rooms old_id sid else rooms
  | none => rooms

/-- Embedding of the `create_room` handler (main.py lines 189-205).
The generated room id (`_generate_room_id()`) is passed in as
`gen_id`; note the code inserts it with no existence check. -/
def create_room (st : ServerState) (sid gen_id : String) : ServerState × List Emit :=
  let str := derase st.sid_to_room sid
  let rooms1 := oldCleanup st.rooms (dget st.sid_to_room sid) sid
  (⟨dset rooms1 gen_id [sid], st.sid_to_user, dset str sid gen_id⟩,
   [⟨sid, "room_created", Payload.roomCreated gen_id⟩])

/-- Embedding of the `join_room` handler (main.py lines 208-256).
`raw` is `data.get("room_id", "")`; it is normalized by strip and
uppercase.  The four error replies go to the sender only and leave
the state untouched.  On success the sid is removed from its old room
(which is torn down if emptied), appended to the target, and the two
notifications are emitted. -/
def join_room (st : ServerState) (sid raw : String) : ServerState × List Emit :=
  let room_id := pyUpper (pyStrip raw)
  if room_id = "" then
    (st, [⟨sid, "error", Payload.errorMsg "Room ID is required."⟩])
  else
    match dget st.rooms room_id with
    | none => (st, [⟨sid, "error", Payload.errorMsg (msgNotFound room_id)⟩])
    | some users =>
        if sid ∈ users then
          (st, [⟨sid, "error", Payload.errorMsg "You are already in this room."⟩])
        else if MAX_USERS_PER_ROOM ≤ users.length then
          (st, [⟨sid, "error", Payload.errorMsg "Room is full."⟩])
        else
          let str := derase st.sid_to_room sid
          let rooms1 := oldCleanupJoin st.rooms (dget st.sid_to_room sid) sid room_id
          let users2 := users ++ [sid]
          let st2 : ServerState := ⟨dset rooms1 room_id users2, st.sid_to_user, dset str sid room_id⟩
          let user_ids := users2.map (fun s => (dget st.sid_to_user s).getD "?")
          (st2,
           ⟨sid, "room_joined", Payload.roomJoined room_id user_ids⟩ ::
             _broadcast_to_room st2 room_id "user_joined"
               (Payload.userJoined ((dget st.sid_to_user sid).getD "unknown") user_ids)
               (some sid))

/-- Modelled from the spec: the `movie_control` handler is absent from
`src/app/main.py` (only the spec section 4.4 table documents it).  Per
that table and the surrounding text, a playback-control event from a
connection with an active room is fanned out as one `movie_control`
event carrying `action` and `value` to the other members of that room,
excluding the sender; with no room association it is silently ignored,
like the other room-scoped relay handlers in the file. -/
def movie_control (st : ServerState) (sid action value : String) : ServerState × List Emit :=
  match dget st.sid_to_room sid with
  | none => (st, [])
  | some room_id =>
      (st, _broadcast_to_room st room_id "movie_control"
        (Payload.movieControl action value) (some sid))

/-- One inbound lifecycle or room-management operation, with the
nondeterministic generator outputs made explicit arguments. -/
inductive Op where
  | conn (sid gen_uid : String)
  | create (sid gen_id : String)
  | join (sid raw : String)
  | disc (sid : String)
  deriving DecidableEq

/-- Dispatch one operation to its handler. -/
def step (st : ServerState) : Op → ServerState × List Emit
  | Op.conn sid gen_uid => connect st sid gen_uid
  | Op.create sid gen_id => create_room st sid gen_id
  | Op.join sid raw => join_room st sid raw
  | Op.disc sid => disconnect st sid

/-- Run a sequence of operations, keeping only the final state. -/
def run (st : ServerState) : List Op → ServerState
  | [] => st
  | op :: ops => run (step st op).1 ops

/-- Recognizer for the values `_generate_room_id()` can return:
`uuid.uuid4().hex[:8].upper()` is always 8 uppercase hex characters. -/
def isGenRoomId (s : String) : Bool :=
  s.data.length == 8 && s.data.all (fun c => "0123456789ABCDEF".data.contains c)

/-- A trace is generator-plausible when every `create` carries a value
the room-id generator can actually produce.  This predicate does not
demand freshness: `uuid.uuid4()` may collide. -/
def genTrace (st : ServerState) : List Op → Bool
  | [] => true
  | op :: ops =>
      (match op with
       | Op.create _ g => isGenRoomId g
       | _ => true) && genTrace (step st op).1 ops

/-- A trace is collision-free when every `create` additionally carries
a room id not already present in the store at that moment.  The code
never checks this; it merely holds with high probability. -/
def freshTrace (st : ServerState) : List Op → Bool
  | [] => true
  | op :: ops =>
      (match op with
       | Op.create _ g => isGenRoomId g && (dget st.rooms g).isNone
       | _ => true) && freshTrace (step st op).1 ops

/-- Embedding of `_generate_user_id` (main.py lines 137-138):
`uuid.uuid4().hex[:12]`, i.e. the first 12 of the 32 hex nibbles of
the uuid.  (In a version-4 uuid the first 12 nibbles are exactly the
unconstrained random ones, so ranging over all 32-nibble inputs yields
the same set of outputs as ranging over genuine uuid4 values.) -/
def _generate_user_id (h : Mathlib.Vector (Fin 16) 32) : Mathlib.Vector (Fin 16) 12 :=
  ⟨h.toList.take 12, by rw [List.length_take, Mathlib.Vector.toList_length]; decide⟩

/-- The bidirectional membership invariant of spec section 3: a
connection c is associated to room r exactly when c is in the member
list of r. -/
def Bidir (st : ServerState) : Prop :=
  ∀ c r, dget st.sid_to_room c = some r ↔ ∃ us, dget st.rooms r = some us ∧ c ∈ us

/-- The per-room structural invariants that hold along every trace,
collision or not: member lists have no duplicates, are never empty,
and respect the capacity bound. -/
structure RoomsWF (st : ServerState) : Prop where
  mem : ∀ r us, dget st.rooms r = some us → us.Nodup
  ne : ∀ r us, dget st.rooms r = some us → us ≠ []
  cap : ∀ r us, dget st.rooms r = some us → us.length ≤ MAX_USERS_PER_ROOM

/-- The full invariant: structural room facts, non-empty room keys
(room ids come from the generator, so they are never the empty string
that Python truthiness tests would misread), and bidirectional
membership consistency. -/
structure Inv (st : ServerState) : Prop where
  wf : RoomsWF st
  ids : ∀ r us, dget st.rooms r = some us → r ≠ ""
  bidir : Bidir st

/-- A collision trace: two `create_room` calls for which the generator
returned the same (format-valid) room id.  The second insertion
overwrites the first room. -/
def collisionTrace : List Op := [Op.create "c2" "AAAAAAAA", Op.create "c1" "AAAAAAAA"]

/-- A collision-free trace building a three-member room AAAAAAAA with
connections a, b, c (and exercising join normalization). -/
def fullRoomTrace : List Op :=
  [Op.conn "a" "u-a", Op.conn "b" "u-b", Op.conn "c" "u-c",
   Op.create "a" "AAAAAAAA", Op.join "b" "aaaaaaaa", Op.join "c" " AAAAAAAA "]

/-- The state reached by `fullRoomTrace`. -/
def stFull : ServerState := run emptyState fullRoomTrace

/-- A single-room state used as the failing input for the room-id
collision bug: room AAAAAAAA exists and holds connection c2. -/
def stC5 : ServerState := run emptyState [Op.create "c2" "AAAAAAAA"]

/-! Lookup laws for the dict helpers.  They hold for every association
list, so no well-formedness side conditions thread through the proofs. -/

theorem dget_derase_self {α : Type} (d : List (String × α)) (k : String) :
    dget (derase d k) k = none := by
  induction d with
  | nil => rfl
  | cons p t ih =>
      by_cases h : p.1 = k <;> simp [derase, dget, h, ih]

theorem dget_derase_ne {α : Type} (d : List (String × α)) {k k' : String} (h : k' ≠ k) :
    dget (derase d k) k' = dget d k' := by
  induction d with
  | nil => rfl
  | cons p t ih =>
      by_cases h1 : p.1 = k
      · simp [derase, dget, h1, h, Ne.symm h, ih]
      · by_cases h2 : p.1 = k' <;> simp [derase, dget, h1, h2, h, ih]

theorem dget_dset_self {α : Type} (d : List (String × α)) (k : String) (v : α) :
    dget (dset d k v) k = some v := by
  induction d with
  | nil => simp [dset, dget]
  | cons p t ih =>
      by_cases h : p.1 = k <;> simp [dset, dget, h, ih]

theorem dget_dset_ne {α : Type} (d : List (String × α)) {k k' : String} (v : α) (h : k' ≠ k) :
    dget (dset d k v) k' = dget d k' := by
  induction d with
  | nil => simp [dset, dget, Ne.symm h]
  | cons p t ih =>
      by_cases h1 : p.1 = k
      · simp [dset, dget, h1, h, Ne.symm h, dget_derase_ne t h]
      · by_cases h2 : p.1 = k' <;> simp [dset, dget, h1, h2, h, ih]

theorem derase_derase {α : Type} (d : List (String × α)) (k : String) :
    derase (derase d k) k = derase d k := by
  induction d with
  | nil => rfl
  | cons p t ih =>
      by_cases h : p.1 = k <;> simp [derase, h, ih]

theorem derase_dset_self {α : Type} (d : List (String × α)) (k : String) (v : α) :
    derase (dset d k v) k = derase d k := by
  induction d with
  | nil => simp [dset, derase]
  | cons p t ih =>
      by_cases h : p.1 = k <;> simp [dset, derase, h, ih, derase_derase]

/-! Conditional equations for the handlers: one per control path, so
later proofs never re-unfold a `match` on an opaque scrutinee. -/

theorem broadcast_eq_none {st : ServerState} {rid : String} (ev : String) (d : Payload)
    (sk : Option String) (h : dget st.rooms rid = none) :
    _broadcast_to_room st rid ev d sk = [] := by
  simp [_broadcast_to_room, h]

theorem broadcast_eq_some {st : ServerState} {rid : String} {users : List String} (ev : String)
    (d : Payload) (sk : Option String) (h : dget st.rooms rid = some users) :
    _broadcast_to_room st rid ev d sk =
      (users.filter (fun s => sk != some s)).map (fun s => ⟨s, ev, d⟩) := by
  simp [_broadcast_to_room, h]

theorem erase_eq_nil_of_mem {l : List String} {a : String} (hm : a ∈ l) (h : l.erase a = []) :
    l = [a] := by
  have hlen : l.length - 1 = 0 := by rw [← List.length_erase_of_mem hm, h]; rfl
  have hpos : 0 < l.length := List.length_pos.mpr (List.ne_nil_of_mem hm)
  have h1 : l.length = 1 := by omega
  obtain ⟨b, rfl⟩ := List.length_eq_one.mp h1
  have : a = b := List.mem_singleton.mp hm
  rw [this]

theorem removeFromRoom_eq_none {rooms : List (String × List String)} {rid : String}
    (sid : String) (h : dget rooms rid = none) : removeFromRoom rooms rid sid = rooms := by
  simp [removeFromRoom, h]

theorem removeFromRoom_eq_some {rooms : List (String × List String)} {rid : String}
    {us : List String} (sid : String) (h : dget rooms rid = some us) :
    removeFromRoom rooms rid sid =
      if us.erase sid = [] then derase rooms rid else dset rooms rid (us.erase sid) := by
  by_cases hm : sid ∈ us
  · simp [removeFromRoom, h, hm]
  · simp [removeFromRoom, h, hm, List.erase_of_not_mem hm]

theorem dget_removeFromRoom {rooms : List (String × List String)} {rid : String}
    {us : List String} {sid : String} (h : dget rooms rid = some us) (r : String) :
    dget (removeFromRoom rooms rid sid) r =
      if r = rid then (if us.erase sid = [] then none else some (us.erase sid))
      else dget rooms r := by
  rw [removeFromRoom_eq_some sid h]
  by_cases hr : r = rid
  · subst hr
    by_cases he : us.erase sid = [] <;> simp [he, dget_derase_self, dget_dset_self]
  · by_cases he : us.erase sid = [] <;>
      simp [he, hr, dget_derase_ne _ hr, dget_dset_ne _ _ hr]

theorem removeFromRoom_cases {rooms : List (String × List String)} {rid sid r : String}
    {us' : List String} (h : dget (removeFromRoom rooms rid sid) r = some us') :
    dget rooms r = some us' ∨
      ∃ us, dget rooms r = some us ∧ us' = us.erase sid ∧ us' ≠ [] := by
  cases hg : dget rooms rid with
  | none => rw [removeFromRoom_eq_none sid hg] at h; exact Or.inl h
  | some us =>
      rw [dget_removeFromRoom hg r] at h
      by_cases hr : r = rid
      · subst hr
        by_cases he : us.erase sid = [] <;> simp [he] at h
        subst h
        exact Or.inr ⟨us, hg, rfl, he⟩
      · simp [hr] at h
        exact Or.inl h

theorem oldCleanup_none (rooms : List (String × List String)) (sid : String) :
    oldCleanup rooms none sid = rooms := rfl

theorem oldCleanup_some (rooms : List (String × List String)) (oid sid : String) :
    oldCleanup rooms (some oid) sid =
      if oid ≠ "" then removeFromRoom rooms oid sid else rooms := rfl

theorem oldCleanupJoin_none (rooms : List (String × List String)) (sid rid : String) :
    oldCleanupJoin rooms none sid rid = rooms := rfl

theorem oldCleanupJoin_some (rooms : List (String × List String)) (oid sid rid : String) :
    oldCleanupJoin rooms (some oid) sid rid =
      if oid ≠ "" ∧ oid ≠ rid then removeFromRoom rooms oid sid else rooms := rfl

theorem oldCleanup_cases {rooms : List (String × List String)} {old : Option String}
    {sid r : String} {us' : List String} (h : dget (oldCleanup rooms old sid) r = some us') :
    dget rooms r = some us' ∨
      ∃ us, dget rooms r = some us ∧ us' = us.erase sid ∧ us' ≠ [] := by
  cases old with
  | none => exact Or.inl h
  | some oid =>
      rw [oldCleanup_some] at h
      by_cases ho : oid ≠ ""
      · rw [if_pos ho] at h; exact removeFromRoom_cases h
      · rw [if_neg ho] at h; exact Or.inl h

theorem oldCleanupJoin_cases {rooms : List (String × List String)} {old : Option String}
    {sid rid r : String} {us' : List String}
    (h : dget (oldCleanupJoin rooms old sid rid) r = some us') :
    dget rooms r = some us' ∨
      ∃ us, dget rooms r = some us ∧ us' = us.erase sid ∧ us' ≠ [] := by
  cases old with
  | none => exact Or.inl h
  | some oid =>
      rw [oldCleanupJoin_some] at h
      by_cases ho : oid ≠ "" ∧ oid ≠ rid
      · rw [if_pos ho] at h; exact removeFromRoom_cases h
      · rw [if_neg ho] at h; exact Or.inl h

theorem create_room_eq (st : ServerState) (sid g : String) :
    create_room st sid g =
      (⟨dset (oldCleanup st.rooms (dget st.sid_to_room sid) sid) g [sid],
        st.sid_to_user, dset (derase st.sid_to_room sid) sid g⟩,
       [⟨sid, "room_created", Payload.roomCreated g⟩]) := rfl

theorem disconnect_eq_none {st : ServerState} {sid : String}
    (h : dget st.sid_to_room sid = none) :
    disconnect st sid =
      (⟨st.rooms, derase st.sid_to_user sid, derase st.sid_to_room sid⟩, []) := by
  simp [disconnect, h]

theorem disconnect_eq_dangling {st : ServerState} {sid rid : String}
    (h : dget st.sid_to_room sid = some rid) (h2 : dget st.rooms rid = none) :
    disconnect st sid =
      (⟨st.rooms, derase st.sid_to_user sid, derase st.sid_to_room sid⟩, []) := by
  simp [disconnect, h, h2]

theorem disconnect_eq_some {st : ServerState} {sid rid : String} {users : List String}
    (h : dget st.sid_to_room sid = some rid) (h2 : dget st.rooms rid = some users) :
    disconnect st sid =
      (⟨if users.erase sid = [] then derase st.rooms rid
          else dset st.rooms rid (users.erase sid),
        derase st.sid_to_user sid, derase st.sid_to_room sid⟩,
       (users.erase sid).map (fun m =>
         ⟨m, "user_disconnected",
          Payload.userDisconnected ((dget st.sid_to_user sid).getD "unknown")⟩)) := by
  have hu1 : (if sid ∈ users then users.erase sid else users) = users.erase sid := by
    by_cases hm : sid ∈ users
    · rw [if_pos hm]
    · rw [if_neg hm, List.erase_of_not_mem hm]
  have hb : _broadcast_to_room
      ⟨dset st.rooms rid (users.erase sid), derase st.sid_to_user sid,
       derase st.sid_to_room sid⟩ rid "user_disconnected"
      (Payload.userDisconnected ((dget st.sid_to_user sid).getD "unknown")) none =
      (users.erase sid).map (fun m =>
        ⟨m, "user_disconnected",
         Payload.userDisconnected ((dget st.sid_to_user sid).getD "unknown")⟩) := by
    rw [broadcast_eq_some _ _ _ (dget_dset_self st.rooms rid (users.erase sid))]
    have hf : (users.erase sid).filter (fun s => (none : Option String) != some s) =
        users.erase sid := List.filter_eq_self.mpr (fun a _ => rfl)
    rw [hf]
  simp only [disconnect, h, h2, hu1, hb, derase_dset_self]

theorem join_room_eq_empty {st : ServerState} {sid raw : String}
    (h : pyUpper (pyStrip raw) = "") :
    join_room st sid raw = (st, [⟨sid, "error", Payload.errorMsg "Room ID is required."⟩]) := by
  simp [join_room, h]

theorem join_room_eq_notfound {st : ServerState} {sid raw rid : String}
    (h : pyUpper (pyStrip raw) = rid) (h1 : rid ≠ "") (h2 : dget st.rooms rid = none) :
    join_room st sid raw = (st, [⟨sid, "error", Payload.errorMsg (msgNotFound rid)⟩]) := by
  subst h
  simp [join_room, h1, h2]

theorem join_room_eq_already {st : ServerState} {sid raw rid : String} {users : List String}
    (h : pyUpper (pyStrip raw) = rid) (h1 : rid ≠ "") (h2 : dget st.rooms rid = some users)
    (h3 : sid ∈ users) :
    join_room st sid raw =
      (st, [⟨sid, "error", Payload.errorMsg "You are already in this room."⟩]) := by
  subst h
  simp [join_room, h1, h2, h3]

theorem join_room_eq_full {st : ServerState} {sid raw rid : String} {users : List String}
    (h : pyUpper (pyStrip raw) = rid) (h1 : rid ≠ "") (h2 : dget st.rooms rid = some users)
    (h3 : sid ∉ users) (h4 : MAX_USERS_PER_ROOM ≤ users.length) :
    join_room st sid raw = (st, [⟨sid, "error", Payload.errorMsg "Room is full."⟩]) := by
  subst h
  simp [join_room, h1, h2, h3, h4]

theorem join_room_success_state {st : ServerState} {sid raw rid : String} {users : List String}
    (h : pyUpper (pyStrip raw) = rid) (h1 : rid ≠ "") (h2 : dget st.rooms rid = some users)
    (h3 : sid ∉ users) (h4 : users.length < MAX_USERS_PER_ROOM) :
    (join_room st sid raw).1 =
      ⟨dset (oldCleanupJoin st.rooms (dget st.sid_to_room sid) sid rid) rid (users ++ [sid]),
       st.sid_to_user, dset (derase st.sid_to_room sid) sid rid⟩ := by
  subst h
  simp [join_room, h1, h2, h3, Nat.not_le.mpr h4]

/-- Every member list in the store after one operation is either an
untouched old list, an old list with one sid erased (and non-empty),
a fresh singleton, or an old list with one new sid appended under the
capacity guard.  This classification holds for every operation and
every argument, including colliding generated room ids. -/
theorem step_rooms_cases (st : ServerState) (op : Op) {r : String} {us' : List String}
    (h : dget (step st op).1.rooms r = some us') :
    dget st.rooms r = some us' ∨
    (∃ us sid, dget st.rooms r = some us ∧ us' = us.erase sid ∧ us' ≠ []) ∨
    (∃ sid, us' = [sid]) ∨
    (∃ us sid, dget st.rooms r = some us ∧ us' = us ++ [sid] ∧ sid ∉ us ∧
      us.length < MAX_USERS_PER_ROOM) := by
  cases op with
  | conn sid gen_uid => exact Or.inl h
  | create sid g =>
      simp only [step, create_room_eq] at h
      by_cases hr : r = g
      · subst hr
        rw [dget_dset_self] at h
        exact Or.inr (Or.inr (Or.inl ⟨sid, (Option.some_injective _ h).symm⟩))
      · rw [dget_dset_ne _ _ hr] at h
        rcases oldCleanup_cases h with h1 | ⟨us, h1, h2, h3⟩
        · exact Or.inl h1
        · exact Or.inr (Or.inl ⟨us, sid, h1, h2, h3⟩)
  | disc sid =>
      simp only [step] at h
      cases h1 : dget st.sid_to_room sid with
      | none => simp only [disconnect_eq_none h1] at h; exact Or.inl h
      | some rid =>
          cases h2 : dget st.rooms rid with
          | none => simp only [disconnect_eq_dangling h1 h2] at h; exact Or.inl h
          | some users =>
              simp only [disconnect_eq_some h1 h2] at h
              by_cases he : users.erase sid = []
              · rw [if_pos he] at h
                by_cases hr : r = rid
                · subst hr; rw [dget_derase_self] at h; exact Option.noConfusion h
                · rw [dget_derase_ne _ hr] at h; exact Or.inl h
              · rw [if_neg he] at h
                by_cases hr : r = rid
                · subst hr; rw [dget_dset_self] at h
                  have heq : us' = users.erase sid := (Option.some_injective _ h).symm
                  exact Or.inr (Or.inl ⟨users, sid, h2, heq, by rw [heq]; exact he⟩)
                · rw [dget_dset_ne _ _ hr] at h; exact Or.inl h
  | join sid raw =>
      simp only [step] at h
      by_cases h1 : pyUpper (pyStrip raw) = ""
      · simp only [join_room_eq_empty h1] at h; exact Or.inl h
      · cases h2 : dget st.rooms (pyUpper (pyStrip raw)) with
        | none => simp only [join_room_eq_notfound rfl h1 h2] at h; exact Or.inl h
        | some users =>
            by_cases h3 : sid ∈ users
            · simp only [join_room_eq_already rfl h1 h2 h3] at h; exact Or.inl h
            · by_cases h4 : MAX_USERS_PER_ROOM ≤ users.length
              · simp only [join_room_eq_full rfl h1 h2 h3 h4] at h; exact Or.inl h
              · have h4' : users.length < MAX_USERS_PER_ROOM := Nat.not_le.mp h4
                simp only [join_room_success_state rfl h1 h2 h3 h4'] at h
                by_cases hr : r = pyUpper (pyStrip raw)
                · subst hr
                  rw [dget_dset_self] at h
                  exact Or.inr (Or.inr (Or.inr ⟨users, sid, h2,
                    (Option.some_injective _ h).symm, h3, h4'⟩))
                · rw [dget_dset_ne _ _ hr] at h
                  rcases oldCleanupJoin_cases h with h5 | ⟨us, h5, h6, h7⟩
                  · exact Or.inl h5
                  · exact Or.inr (Or.inl ⟨us, sid, h5, h6, h7⟩)

theorem roomsWF_step {st : ServerState} (h : RoomsWF st) (op : Op) :
    RoomsWF (step st op).1 := by
  constructor
  · intro r us' hus'
    rcases step_rooms_cases st op hus' with
      h1 | ⟨us, sid, h1, h2, h3⟩ | ⟨sid, h1⟩ | ⟨us, sid, h1, h2, h3, h4⟩
    · exact h.mem r us' h1
    · rw [h2]; exact (h.mem r us h1).erase sid
    · rw [h1]; exact List.nodup_singleton sid
    · rw [h2, List.nodup_append]
      exact ⟨h.mem r us h1, List.nodup_singleton sid, List.disjoint_singleton.mpr h3⟩
  · intro r us' hus'
    rcases step_rooms_cases st op hus' with
      h1 | ⟨us, sid, h1, h2, h3⟩ | ⟨sid, h1⟩ | ⟨us, sid, h1, h2, h3, h4⟩
    · exact h.ne r us' h1
    · exact h3
    · rw [h1]; exact List.cons_ne_nil sid []
    · rw [h2]; simp
  · intro r us' hus'
    rcases step_rooms_cases st op hus' with
      h1 | ⟨us, sid, h1, h2, h3⟩ | ⟨sid, h1⟩ | ⟨us, sid, h1, h2, h3, h4⟩
    · exact h.cap r us' h1
    · rw [h2]; exact le_trans (List.erase_sublist sid us).length_le (h.cap r us h1)
    · rw [h1]; simp [MAX_USERS_PER_ROOM]
    · rw [h2]; rw [List.length_append]; simp only [List.length_singleton]; omega

theorem roomsWF_empty : RoomsWF emptyState := by
  refine ⟨?_, ?_, ?_⟩ <;> intro r us h <;> exact Option.noConfusion h

theorem roomsWF_run (ops : List Op) : ∀ st : ServerState, RoomsWF st → RoomsWF (run st ops) := by
  induction ops with
  | nil => intro st h; exact h
  | cons op rest ih => intro st h; exact ih (step st op).1 (roomsWF_step h op)

/-! Helper facts used by the bidirectional-invariant preservation
proofs.  `A` below is always `st.sid_to_room`. -/

/-- A connection with no room association appears in no member list. -/
theorem sid_not_in_any {st : ServerState} (hInv : Inv st) {sid : String}
    (hold : dget st.sid_to_room sid = none) (r : String) {us : List String}
    (hus : dget st.rooms r = some us) (hmem : sid ∈ us) : False := by
  have h6 := (hInv.bidir sid r).mpr ⟨us, hus, hmem⟩
  rw [hold] at h6
  exact Option.noConfusion h6

/-- A connection associated to `oid` appears in no member list other
than the one of `oid`. -/
theorem sid_only_in {st : ServerState} (hInv : Inv st) {sid oid : String}
    (hold : dget st.sid_to_room sid = some oid) {r : String} {us : List String}
    (hus : dget st.rooms r = some us) (hmem : sid ∈ us) : r = oid := by
  have h6 := (hInv.bidir sid r).mpr ⟨us, hus, hmem⟩
  rw [hold] at h6
  exact (Option.some_injective _ h6).symm

/-- After erasing `sid` from the member list of its room, membership
of any other connection in that room is unchanged. -/
theorem bidir_erased {st : ServerState} (hInv : Inv st) {oid : String} {ous : List String}
    (hous : dget st.rooms oid = some ous) {sid c : String} (hc : ¬ c = sid) :
    (dget st.sid_to_room c = some oid ↔
      ∃ us, some (ous.erase sid) = some us ∧ c ∈ us) := by
  constructor
  · intro hh
    obtain ⟨us, hus, hmem⟩ := (hInv.bidir c oid).mp hh
    rw [hous] at hus
    rw [← Option.some_injective _ hus] at hmem
    exact ⟨ous.erase sid, rfl, (List.mem_erase_of_ne hc).mpr hmem⟩
  · rintro ⟨us, hus, hmem⟩
    rw [← Option.some_injective _ hus] at hmem
    exact (hInv.bidir c oid).mpr ⟨ous, hous, (List.mem_erase_of_ne hc).mp hmem⟩

/-- When erasing `sid` empties its room, no other connection was
associated to that room. -/
theorem bidir_gone {st : ServerState} (hInv : Inv st) {oid : String} {ous : List String}
    (hous : dget st.rooms oid = some ous) {sid c : String} (hsid : sid ∈ ous)
    (he : ous.erase sid = []) (hc : ¬ c = sid) :
    ¬ dget st.sid_to_room c = some oid := by
  intro hh
  obtain ⟨us, hus, hmem⟩ := (hInv.bidir c oid).mp hh
  rw [hous] at hus
  rw [← Option.some_injective _ hus, erase_eq_nil_of_mem hsid he] at hmem
  exact hc (List.mem_singleton.mp hmem)

/-- Appending `sid` to the member list of room `rid` preserves the
association iff for every other connection. -/
theorem bidir_append {st : ServerState} (hInv : Inv st) {rid : String} {users : List String}
    (h2 : dget st.rooms rid = some users) {sid c : String} (hc : ¬ c = sid) :
    (dget st.sid_to_room c = some rid ↔
      ∃ us, some (users ++ [sid]) = some us ∧ c ∈ us) := by
  constructor
  · intro hh
    obtain ⟨us, hus, hmem⟩ := (hInv.bidir c rid).mp hh
    rw [h2] at hus
    rw [← Option.some_injective _ hus] at hmem
    exact ⟨users ++ [sid], rfl, List.mem_append_left _ hmem⟩
  · rintro ⟨us, hus, hmem⟩
    rw [← Option.some_injective _ hus] at hmem
    rcases List.mem_append.mp hmem with hm | hm
    · exact (hInv.bidir c rid).mpr ⟨users, h2, hm⟩
    · exact absurd (List.mem_singleton.mp hm) hc

theorem inv_step_conn {st : ServerState} (hInv : Inv st) (sid gen_uid : String) :
    Inv (connect st sid gen_uid).1 :=
  ⟨⟨hInv.wf.mem, hInv.wf.ne, hInv.wf.cap⟩, hInv.ids, hInv.bidir⟩

theorem inv_step_disc {st : ServerState} (hInv : Inv st) (sid : String) :
    Inv (disconnect st sid).1 := by
  cases hold : dget st.sid_to_room sid with
  | none =>
      simp only [disconnect_eq_none hold]
      refine ⟨⟨hInv.wf.mem, hInv.wf.ne, hInv.wf.cap⟩, hInv.ids, ?_⟩
      intro c r
      by_cases hc : c = sid
      · subst hc
        rw [dget_derase_self]
        apply iff_of_false (fun h => Option.noConfusion h)
        rintro ⟨us, hus, hmem⟩
        exact sid_not_in_any hInv hold r hus hmem
      · rw [dget_derase_ne _ hc]
        exact hInv.bidir c r
  | some rid =>
      cases h2 : dget st.rooms rid with
      | none =>
          obtain ⟨us, hus, _⟩ := (hInv.bidir sid rid).mp hold
          rw [h2] at hus
          exact Option.noConfusion hus
      | some users =>
          have hsid : sid ∈ users := by
            obtain ⟨us, hus, hm⟩ := (hInv.bidir sid rid).mp hold
            rw [h2] at hus
            rw [← Option.some_injective _ hus] at hm
            exact hm
          have hnodup : users.Nodup := hInv.wf.mem rid users h2
          simp only [disconnect_eq_some hold h2]
          refine ⟨?_, ?_, ?_⟩
          · -- structural facts for the updated store
            refine ⟨?_, ?_, ?_⟩ <;> intro r us hus <;> by_cases he : users.erase sid = []
            · rw [if_pos he] at hus
              by_cases hr : r = rid
              · subst hr; rw [dget_derase_self] at hus; exact Option.noConfusion hus
              · rw [dget_derase_ne _ hr] at hus; exact hInv.wf.mem r us hus
            · rw [if_neg he] at hus
              by_cases hr : r = rid
              · subst hr; rw [dget_dset_self] at hus
                rw [← Option.some_injective _ hus]
                exact hnodup.erase sid
              · rw [dget_dset_ne _ _ hr] at hus; exact hInv.wf.mem r us hus
            · rw [if_pos he] at hus
              by_cases hr : r = rid
              · subst hr; rw [dget_derase_self] at hus; exact Option.noConfusion hus
              · rw [dget_derase_ne _ hr] at hus; exact hInv.wf.ne r us hus
            · rw [if_neg he] at hus
              by_cases hr : r = rid
              · subst hr; rw [dget_dset_self] at hus
                rw [← Option.some_injective _ hus]
                exact he
              · rw [dget_dset_ne _ _ hr] at hus; exact hInv.wf.ne r us hus
            · rw [if_pos he] at hus
              by_cases hr : r = rid
              · subst hr; rw [dget_derase_self] at hus; exact Option.noConfusion hus
              · rw [dget_derase_ne _ hr] at hus; exact hInv.wf.cap r us hus
            · rw [if_neg he] at hus
              by_cases hr : r = rid
              · subst hr; rw [dget_dset_self] at hus
                rw [← Option.some_injective _ hus]
                exact le_trans (List.erase_sublist sid users).length_le
                  (hInv.wf.cap r users h2)
              · rw [dget_dset_ne _ _ hr] at hus; exact hInv.wf.cap r us hus
          · -- room keys stay non-empty
            intro r us hus
            by_cases he : users.erase sid = []
            · rw [if_pos he] at hus
              by_cases hr : r = rid
              · subst hr; rw [dget_derase_self] at hus; exact Option.noConfusion hus
              · rw [dget_derase_ne _ hr] at hus; exact hInv.ids r us hus
            · rw [if_neg he] at hus
              by_cases hr : r = rid
              · subst hr; exact hInv.ids r users h2
              · rw [dget_dset_ne _ _ hr] at hus; exact hInv.ids r us hus
          · -- bidirectional consistency
            intro c r
            by_cases hc : c = sid
            · rw [hc, dget_derase_self]
              apply iff_of_false (fun h => Option.noConfusion h)
              rintro ⟨us, hus, hmem⟩
              by_cases he : users.erase sid = []
              · rw [if_pos he] at hus
                by_cases hr : r = rid
                · subst hr; rw [dget_derase_self] at hus; exact Option.noConfusion hus
                · rw [dget_derase_ne _ hr] at hus
                  exact hr (sid_only_in hInv hold hus hmem)
              · rw [if_neg he] at hus
                by_cases hr : r = rid
                · subst hr; rw [dget_dset_self] at hus
                  rw [← Option.some_injective _ hus] at hmem
                  exact hnodup.not_mem_erase hmem
                · rw [dget_dset_ne _ _ hr] at hus
                  exact hr (sid_only_in hInv hold hus hmem)
            · rw [dget_derase_ne _ hc]
              by_cases he : users.erase sid = []
              · rw [if_pos he]
                by_cases hr : r = rid
                · subst hr
                  rw [dget_derase_self]
                  exact iff_of_false (bidir_gone hInv h2 hsid he hc)
                    (fun ⟨us, hus, _⟩ => Option.noConfusion hus)
                · rw [dget_derase_ne _ hr]
                  exact hInv.bidir c r
              · rw [if_neg he]
                by_cases hr : r = rid
                · subst hr
                  rw [dget_dset_self]
                  exact bidir_erased hInv h2 hc
                · rw [dget_dset_ne _ _ hr]
                  exact hInv.bidir c r

theorem inv_step_create {st : ServerState} (hInv : Inv st) (sid g : String)
    (hgne : g ≠ "") (hfresh : dget st.rooms g = none) :
    Inv (create_room st sid g).1 := by
  refine ⟨⟨?_, ?_, ?_⟩, ?_, ?_⟩
  · intro r us hus
    rcases step_rooms_cases st (Op.create sid g) hus with
      h1 | ⟨us0, sid0, h1, h2, h3⟩ | ⟨sid0, h1⟩ | ⟨us0, sid0, h1, h2, h3, h4⟩
    · exact hInv.wf.mem r us h1
    · rw [h2]; exact (hInv.wf.mem r us0 h1).erase sid0
    · rw [h1]; exact List.nodup_singleton sid0
    · rw [h2, List.nodup_append]
      exact ⟨hInv.wf.mem r us0 h1, List.nodup_singleton sid0, List.disjoint_singleton.mpr h3⟩
  · intro r us hus
    rcases step_rooms_cases st (Op.create sid g) hus with
      h1 | ⟨us0, sid0, h1, h2, h3⟩ | ⟨sid0, h1⟩ | ⟨us0, sid0, h1, h2, h3, h4⟩
    · exact hInv.wf.ne r us h1
    · exact h3
    · rw [h1]; exact List.cons_ne_nil sid0 []
    · rw [h2]; simp
  · intro r us hus
    rcases step_rooms_cases st (Op.create sid g) hus with
      h1 | ⟨us0, sid0, h1, h2, h3⟩ | ⟨sid0, h1⟩ | ⟨us0, sid0, h1, h2, h3, h4⟩
    · exact hInv.wf.cap r us h1
    · rw [h2]; exact le_trans (List.erase_sublist sid0 us0).length_le (hInv.wf.cap r us0 h1)
    · rw [h1]; simp [MAX_USERS_PER_ROOM]
    · rw [h2, List.length_append]; simp only [List.length_singleton]; omega
  · -- room keys stay non-empty
    intro r us hus
    simp only [create_room_eq] at hus
    by_cases hr : r = g
    · rw [hr]; exact hgne
    · rw [dget_dset_ne _ _ hr] at hus
      rcases oldCleanup_cases hus with h1 | ⟨us0, h1, _, _⟩
      · exact hInv.ids r us h1
      · exact hInv.ids r us0 h1
  · -- bidirectional consistency
    intro c r
    simp only [create_room_eq]
    cases hold : dget st.sid_to_room sid with
    | none =>
        rw [oldCleanup_none]
        by_cases hc : c = sid
        · rw [hc, dget_dset_self]
          by_cases hr : r = g
          · rw [hr]
            exact iff_of_true rfl ⟨[sid], dget_dset_self _ _ _, List.mem_singleton_self sid⟩
          · apply iff_of_false (fun hh => hr (Option.some_injective _ hh).symm)
            rintro ⟨us, hus, hmem⟩
            rw [dget_dset_ne _ _ hr] at hus
            exact sid_not_in_any hInv hold r hus hmem
        · rw [dget_dset_ne _ _ hc, dget_derase_ne _ hc]
          by_cases hr : r = g
          · subst hr
            apply iff_of_false
            · intro hh
              obtain ⟨us, hus, _⟩ := (hInv.bidir c r).mp hh
              rw [hfresh] at hus
              exact Option.noConfusion hus
            · rintro ⟨us, hus, hmem⟩
              rw [dget_dset_self] at hus
              rw [← Option.some_injective _ hus] at hmem
              exact hc (List.mem_singleton.mp hmem)
          · rw [dget_dset_ne _ _ hr]
            exact hInv.bidir c r
    | some oid =>
        obtain ⟨ous, hous, hsid⟩ := (hInv.bidir sid oid).mp hold
        have hoid : oid ≠ "" := hInv.ids oid ous hous
        have hnodup : ous.Nodup := hInv.wf.mem oid ous hous
        rw [oldCleanup_some, if_pos hoid]
        by_cases hc : c = sid
        · rw [hc, dget_dset_self]
          by_cases hr : r = g
          · rw [hr]
            exact iff_of_true rfl ⟨[sid], dget_dset_self _ _ _, List.mem_singleton_self sid⟩
          · apply iff_of_false (fun hh => hr (Option.some_injective _ hh).symm)
            rintro ⟨us, hus, hmem⟩
            rw [dget_dset_ne _ _ hr, dget_removeFromRoom hous r] at hus
            by_cases hro : r = oid
            · rw [if_pos hro] at hus
              by_cases he : ous.erase sid = []
              · rw [if_pos he] at hus; exact Option.noConfusion hus
              · rw [if_neg he] at hus
                rw [← Option.some_injective _ hus] at hmem
                exact hnodup.not_mem_erase hmem
            · rw [if_neg hro] at hus
              exact hro (sid_only_in hInv hold hus hmem)
        · rw [dget_dset_ne _ _ hc, dget_derase_ne _ hc]
          by_cases hr : r = g
          · subst hr
            apply iff_of_false
            · intro hh
              obtain ⟨us, hus, _⟩ := (hInv.bidir c r).mp hh
              rw [hfresh] at hus
              exact Option.noConfusion hus
            · rintro ⟨us, hus, hmem⟩
              rw [dget_dset_self] at hus
              rw [← Option.some_injective _ hus] at hmem
              exact hc (List.mem_singleton.mp hmem)
          · rw [dget_dset_ne _ _ hr, dget_removeFromRoom hous r]
            by_cases hro : r = oid
            · rw [if_pos hro]
              by_cases he : ous.erase sid = []
              · rw [if_pos he, hro]
                exact iff_of_false (bidir_gone hInv hous hsid he hc)
                  (fun ⟨us, hus, _⟩ => Option.noConfusion hus)
              · rw [if_neg he, hro]
                exact bidir_erased hInv hous hc
            · rw [if_neg hro]
              exact hInv.bidir c r

theorem inv_step_join {st : ServerState} (hInv : Inv st) (sid raw : String) :
    Inv (join_room st sid raw).1 := by
  by_cases h1 : pyUpper (pyStrip raw) = ""
  · simp only [join_room_eq_empty h1]; exact hInv
  · cases h2 : dget st.rooms (pyUpper (pyStrip raw)) with
    | none => simp only [join_room_eq_notfound rfl h1 h2]; exact hInv
    | some users =>
        by_cases h3 : sid ∈ users
        · simp only [join_room_eq_already rfl h1 h2 h3]; exact hInv
        · by_cases h4 : MAX_USERS_PER_ROOM ≤ users.length
          · simp only [join_room_eq_full rfl h1 h2 h3 h4]; exact hInv
          · have h4' : users.length < MAX_USERS_PER_ROOM := Nat.not_le.mp h4
            refine ⟨⟨?_, ?_, ?_⟩, ?_, ?_⟩
            · intro r us hus
              rcases step_rooms_cases st (Op.join sid raw) hus with
                ha | ⟨us0, sid0, ha, hb, hc⟩ | ⟨sid0, ha⟩ | ⟨us0, sid0, ha, hb, hc, hd⟩
              · exact hInv.wf.mem r us ha
              · rw [hb]; exact (hInv.wf.mem r us0 ha).erase sid0
              · rw [ha]; exact List.nodup_singleton sid0
              · rw [hb, List.nodup_append]
                exact ⟨hInv.wf.mem r us0 ha, List.nodup_singleton sid0,
                  List.disjoint_singleton.mpr hc⟩
            · intro r us hus
              rcases step_rooms_cases st (Op.join sid raw) hus with
                ha | ⟨us0, sid0, ha, hb, hc⟩ | ⟨sid0, ha⟩ | ⟨us0, sid0, ha, hb, hc, hd⟩
              · exact hInv.wf.ne r us ha
              · exact hc
              · rw [ha]; exact List.cons_ne_nil sid0 []
              · rw [hb]; simp
            · intro r us hus
              rcases step_rooms_cases st (Op.join sid raw) hus with
                ha | ⟨us0, sid0, ha, hb, hc⟩ | ⟨sid0, ha⟩ | ⟨us0, sid0, ha, hb, hc, hd⟩
              · exact hInv.wf.cap r us ha
              · rw [hb]
                exact le_trans (List.erase_sublist sid0 us0).length_le (hInv.wf.cap r us0 ha)
              · rw [ha]; simp [MAX_USERS_PER_ROOM]
              · rw [hb, List.length_append]; simp only [List.length_singleton]; omega
            · -- room keys stay non-empty
              intro r us hus
              simp only [join_room_success_state rfl h1 h2 h3 h4'] at hus
              by_cases hr : r = pyUpper (pyStrip raw)
              · rw [hr]; exact h1
              · rw [dget_dset_ne _ _ hr] at hus
                rcases oldCleanupJoin_cases hus with ha | ⟨us0, ha, _, _⟩
                · exact hInv.ids r us ha
                · exact hInv.ids r us0 ha
            · -- bidirectional consistency
              intro c r
              simp only [join_room_success_state rfl h1 h2 h3 h4']
              cases hold : dget st.sid_to_room sid with
              | none =>
                  rw [oldCleanupJoin_none]
                  by_cases hc : c = sid
                  · rw [hc, dget_dset_self]
                    by_cases hr : r = pyUpper (pyStrip raw)
                    · rw [hr]
                      refine iff_of_true rfl ⟨users ++ [sid], dget_dset_self _ _ _, ?_⟩
                      exact List.mem_append_right _ (List.mem_singleton_self sid)
                    · apply iff_of_false (fun hh => hr (Option.some_injective _ hh).symm)
                      rintro ⟨us, hus, hmem⟩
                      rw [dget_dset_ne _ _ hr] at hus
                      exact sid_not_in_any hInv hold r hus hmem
                  · rw [dget_dset_ne _ _ hc, dget_derase_ne _ hc]
                    by_cases hr : r = pyUpper (pyStrip raw)
                    · subst hr
                      rw [dget_dset_self]
                      exact bidir_append hInv h2 hc
                    · rw [dget_dset_ne _ _ hr]
                      exact hInv.bidir c r
              | some oid =>
                  obtain ⟨ous, hous, hsid⟩ := (hInv.bidir sid oid).mp hold
                  have hoid : oid ≠ "" := hInv.ids oid ous hous
                  have hnodup : ous.Nodup := hInv.wf.mem oid ous hous
                  have hor : oid ≠ pyUpper (pyStrip raw) := by
                    intro he
                    rw [he, h2] at hous
                    rw [Option.some_injective _ hous] at h3
                    exact h3 hsid
                  rw [oldCleanupJoin_some, if_pos ⟨hoid, hor⟩]
                  by_cases hc : c = sid
                  · rw [hc, dget_dset_self]
                    by_cases hr : r = pyUpper (pyStrip raw)
                    · rw [hr]
                      refine iff_of_true rfl ⟨users ++ [sid], dget_dset_self _ _ _, ?_⟩
                      exact List.mem_append_right _ (List.mem_singleton_self sid)
                    · apply iff_of_false (fun hh => hr (Option.some_injective _ hh).symm)
                      rintro ⟨us, hus, hmem⟩
                      rw [dget_dset_ne _ _ hr, dget_removeFromRoom hous r] at hus
                      by_cases hro : r = oid
                      · rw [if_pos hro] at hus
                        by_cases he : ous.erase sid = []
                        · rw [if_pos he] at hus; exact Option.noConfusion hus
                        · rw [if_neg he] at hus
                          rw [← Option.some_injective _ hus] at hmem
                          exact hnodup.not_mem_erase hmem
                      · rw [if_neg hro] at hus
                        exact hro (sid_only_in hInv hold hus hmem)
                  · rw [dget_dset_ne _ _ hc, dget_derase_ne _ hc]
                    by_cases hr : r = pyUpper (pyStrip raw)
                    · subst hr
                      rw [dget_dset_self]
                      exact bidir_append hInv h2 hc
                    · rw [dget_dset_ne _ _ hr, dget_removeFromRoom hous r]
                      by_cases hro : r = oid
                      · rw [if_pos hro]
                        by_cases he : ous.erase sid = []
                        · rw [if_pos he, hro]
                          exact iff_of_false (bidir_gone hInv hous hsid he hc)
                            (fun ⟨us, hus, _⟩ => Option.noConfusion hus)
                        · rw [if_neg he, hro]
                          exact bidir_erased hInv hous hc
                      · rw [if_neg hro]
                        exact hInv.bidir c r

theorem inv_step {st : ServerState} (hInv : Inv st) (op : Op)
    (hv : match op with
          | Op.create _ g => isGenRoomId g = true ∧ dget st.rooms g = none
          | _ => True) :
    Inv (step st op).1 := by
  cases op with
  | conn sid gen_uid => exact inv_step_conn hInv sid gen_uid
  | create sid g =>
      obtain ⟨hfmt, hfresh⟩ := hv
      have hgne : g ≠ "" := by
        intro he
        rw [he] at hfmt
        simp [isGenRoomId] at hfmt
      exact inv_step_create hInv sid g hgne hfresh
  | join sid raw => exact inv_step_join hInv sid raw
  | disc sid => exact inv_step_disc hInv sid

theorem inv_empty : Inv emptyState := by
  refine ⟨roomsWF_empty, ?_, ?_⟩
  · intro r us h; exact Option.noConfusion h
  · intro c r
    exact iff_of_false (fun h => Option.noConfusion h)
      (fun ⟨us, hus, _⟩ => Option.noConfusion hus)

theorem inv_run (ops : List Op) :
    ∀ st : ServerState, Inv st → freshTrace st ops = true → Inv (run st ops) := by
  induction ops with
  | nil => intro st h _; exact h
  | cons op rest ih =>
      intro st h hf
      cases op with
      | conn sid gen_uid =>
          have hf2 : (true && freshTrace (step st (Op.conn sid gen_uid)).1 rest) = true := hf
          rw [Bool.true_and] at hf2
          exact ih _ (inv_step h (Op.conn sid gen_uid) trivial) hf2
      | join sid raw =>
          have hf2 : (true && freshTrace (step st (Op.join sid raw)).1 rest) = true := hf
          rw [Bool.true_and] at hf2
          exact ih _ (inv_step h (Op.join sid raw) trivial) hf2
      | disc sid =>
          have hf2 : (true && freshTrace (step st (Op.disc sid)).1 rest) = true := hf
          rw [Bool.true_and] at hf2
          exact ih _ (inv_step h (Op.disc sid) trivial) hf2
      | create sid g =>
          have hf2 : ((isGenRoomId g && (dget st.rooms g).isNone) &&
              freshTrace (step st (Op.create sid g)).1 rest) = true := hf
          rw [Bool.and_eq_true, Bool.and_eq_true] at hf2
          exact ih _ (inv_step h (Op.create sid g)
            ⟨hf2.1.1, Option.isNone_iff_eq_none.mp hf2.1.2⟩) hf2.2

/-! Counting helpers for the fan-out claims. -/

theorem emit_filter_length (l : List String) (ev : String) (d : Payload) (m : String) :
    ((l.map (fun s => (⟨s, ev, d⟩ : Emit))).filter (fun e => e.target == m)).length =
      l.count m := by
  induction l with
  | nil => rfl
  | cons a t ih =>
      by_cases h : a = m
      · simp [List.filter_cons, List.count_cons, h, ih]
      · simp [List.filter_cons, List.count_cons, h, ih]

theorem broadcast_count {st : ServerState} {rid : String} {users : List String}
    (ev : String) (d : Payload) (c : String) (h : dget st.rooms rid = some users)
    (hnd : users.Nodup) {m : String} (hm : m ∈ users) (hmc : m ≠ c) :
    ((_broadcast_to_room st rid ev d (some c)).filter (fun e => e.target == m)).length = 1 := by
  rw [broadcast_eq_some ev d (some c) h, emit_filter_length]
  have hcount : (users.filter (fun s => (some c : Option String) != some s)).count m =
      users.count m := by
    apply List.count_filter
    rw [bne_iff_ne]
    intro hh
    exact hmc (Option.some_injective _ hh).symm
  rw [hcount]
  exact List.count_eq_one_of_mem hnd hm

theorem broadcast_emits_shape {st : ServerState} {rid : String} {users : List String}
    (ev : String) (d : Payload) (c : String) (h : dget st.rooms rid = some users) :
    ∀ e ∈ _broadcast_to_room st rid ev d (some c),
      e.target ≠ c ∧ e.target ∈ users ∧ e.event = ev ∧ e.data = d := by
  intro e he
  rw [broadcast_eq_some ev d (some c) h] at he
  obtain ⟨s, hs, rfl⟩ := List.mem_map.mp he
  have hsf := List.of_mem_filter hs
  have hsm := List.mem_of_mem_filter hs
  rw [bne_iff_ne] at hsf
  refine ⟨?_, hsm, rfl, rfl⟩
  intro hh
  exact hsf (congrArg some hh.symm)

/-- Every 12-nibble value is reachable as a user id: extend it with 20
zero nibbles to a 32-nibble input and take the prefix back. -/
theorem generate_user_id_surjective : Function.Surjective _generate_user_id := by
  intro w
  refine ⟨⟨w.toList ++ List.replicate 20 0, by
    rw [List.length_append, Mathlib.Vector.toList_length, List.length_replicate]⟩, ?_⟩
  apply Mathlib.Vector.eq
  show (w.toList ++ List.replicate 20 0).take 12 = w.toList
  exact List.take_left' (Mathlib.Vector.toList_length w)

/-- C10 counterexample: the set of user ids `_generate_user_id` can
produce has cardinality 16 to the 12th power, which is strictly below
2 to the 96th, so user ids carry 48 bits of randomness, not the
claimed 96 or more. -/
theorem C10_user_id_below_96_bits :
    (Finset.image _generate_user_id Finset.univ).card < 2 ^ 96 := by
  rw [Finset.image_univ_of_surjective generate_user_id_surjective, Finset.card_univ,
    card_vector, Fintype.card_fin]
  norm_num

/-- C10 amended: a user id is the 12-character prefix of the uuid hex
string, so exactly 2 to the 48th user ids are possible (48 bits of
randomness). -/
theorem C10_user_id_exactly_48_bits :
    (Finset.image _generate_user_id Finset.univ).card = 2 ^ 48 := by
  rw [Finset.image_univ_of_surjective generate_user_id_surjective, Finset.card_univ,
    card_vector, Fintype.card_fin]
  norm_num

/-- C7: for every room id present in the Room Store, every event name,
every payload and every excluded connection id c, `_broadcast_to_room`
emits the event exactly once to each member of the room other than c,
never emits to c, and emits nothing when the room id is absent. -/
theorem C7_broadcast_exact (st : ServerState) (rid ev : String) (d : Payload) (c : String) :
    (dget st.rooms rid = none → _broadcast_to_room st rid ev d (some c) = []) ∧
    (∀ users, dget st.rooms rid = some users → users.Nodup →
      (∀ m, m ∈ users → m ≠ c →
        ((_broadcast_to_room st rid ev d (some c)).filter (fun e => e.target == m)).length = 1) ∧
      (∀ e ∈ _broadcast_to_room st rid ev d (some c),
        e.target ≠ c ∧ e.target ∈ users ∧ e.event = ev ∧ e.data = d)) := by
  refine ⟨fun h => broadcast_eq_none ev d (some c) h, fun users h hnd => ⟨?_, ?_⟩⟩
  · intro m hm hmc
    exact broadcast_count ev d c h hnd hm hmc
  · exact broadcast_emits_shape ev d c h

/-- C7 witness: in the concrete three-member room, a broadcast that
excludes connection a reaches b exactly once. -/
theorem C7_broadcast_exact_witness :
    dget stFull.rooms "AAAAAAAA" = some ["a", "b", "c"] ∧
    ((_broadcast_to_room stFull "AAAAAAAA" "movie_control"
        (Payload.movieControl "play" "0") (some "a")).filter
      (fun e => e.target == "b")).length = 1 :=
  ⟨by decide,
   ((C7_broadcast_exact stFull "AAAAAAAA" "movie_control"
       (Payload.movieControl "play" "0") "a").2
     ["a", "b", "c"] (by decide) (by decide)).1 "b" (by decide) (by decide)⟩

/-- C4: a `movie_control` event from a connection with an active room
is fanned out exactly once, carrying action and value, to each other
member of that room and never to the sender; from a connection with
no room it is ignored (no state change, no emits). -/
theorem C4_movie_control_fanout (st : ServerState) (sid action value : String) :
    (dget st.sid_to_room sid = none → movie_control st sid action value = (st, [])) ∧
    (∀ rid users, dget st.sid_to_room sid = some rid → dget st.rooms rid = some users →
      users.Nodup →
      (movie_control st sid action value).1 = st ∧
      (∀ m, m ∈ users → m ≠ sid →
        ((movie_control st sid action value).2.filter (fun e => e.target == m)).length = 1) ∧
      (∀ e ∈ (movie_control st sid action value).2,
        e.target ≠ sid ∧ e.target ∈ users ∧ e.event = "movie_control" ∧
        e.data = Payload.movieControl action value)) := by
  constructor
  · intro h; simp [movie_control, h]
  · intro rid users h hr hnd
    refine ⟨by simp [movie_control, h], ?_, ?_⟩
    · intro m hm hmc
      simp only [movie_control, h]
      exact broadcast_count "movie_control" (Payload.movieControl action value) sid hr hnd hm hmc
    · intro e he
      simp only [movie_control, h] at he
      exact broadcast_emits_shape "movie_control" (Payload.movieControl action value) sid hr e he

/-- C4 witness: in the concrete three-member room, a playback command
from a reaches b exactly once and a state with no association for the
sender ignores the event. -/
theorem C4_movie_control_fanout_witness :
    dget stFull.sid_to_room "a" = some "AAAAAAAA" ∧
    ((movie_control stFull "a" "pause" "42").2.filter (fun e => e.target == "b")).length = 1 ∧
    movie_control stFull "z" "pause" "42" = (stFull, []) :=
  ⟨by decide,
   (((C4_movie_control_fanout stFull "a" "pause" "42").2 "AAAAAAAA" ["a", "b", "c"]
       (by decide) (by decide) (by decide)).2).1 "b" (by decide) (by decide),
   (C4_movie_control_fanout stFull "z" "pause" "42").1 (by decide)⟩

/-- C8: disconnecting a connection that belongs to room `rid` emits
exactly one `user_disconnected` event, carrying the user id captured
before it was removed from the registry, to each member of the room
other than the departing connection and to nobody else; when the
departing connection was the only member, nothing is emitted and the
room is deleted from the store. -/
theorem C8_disconnect_notifies (st : ServerState) (sid rid uid : String) (users : List String)
    (hold : dget st.sid_to_room sid = some rid) (h2 : dget st.rooms rid = some users)
    (hnd : users.Nodup) (_hm : sid ∈ users) (huid : dget st.sid_to_user sid = some uid) :
    (∀ m, m ∈ users → m ≠ sid →
      ((disconnect st sid).2.filter (fun e => e.target == m)).length = 1) ∧
    (∀ e ∈ (disconnect st sid).2,
      e.target ≠ sid ∧ e.target ∈ users ∧ e.event = "user_disconnected" ∧
      e.data = Payload.userDisconnected uid) ∧
    (users = [sid] → (disconnect st sid).2 = [] ∧ dget (disconnect st sid).1.rooms rid = none) := by
  have hemits : (disconnect st sid).2 = (users.erase sid).map
      (fun m => ⟨m, "user_disconnected", Payload.userDisconnected uid⟩) := by
    simp only [disconnect_eq_some hold h2, huid, Option.getD_some]
  refine ⟨?_, ?_, ?_⟩
  · intro m hmem hmne
    rw [hemits, emit_filter_length, List.count_erase_of_ne hmne]
    exact List.count_eq_one_of_mem hnd hmem
  · intro e he
    rw [hemits] at he
    obtain ⟨s, hs, rfl⟩ := List.mem_map.mp he
    exact ⟨((hnd.mem_erase_iff).mp hs).1, List.mem_of_mem_erase hs, rfl, rfl⟩
  · intro hu
    have he : users.erase sid = [] := by rw [hu]; simp
    refine ⟨by rw [hemits, he]; rfl, ?_⟩
    simp only [disconnect_eq_some hold h2]
    rw [if_pos he, dget_derase_self]

/-- C8 witness: disconnecting b from the concrete three-member room
notifies a exactly once; evaluating the handler confirms the emitted
payload carries the departed user id u-b. -/
theorem C8_disconnect_notifies_witness :
    dget stFull.sid_to_room "b" = some "AAAAAAAA" ∧
    ((disconnect stFull "b").2.filter (fun e => e.target == "a")).length = 1 :=
  ⟨by decide,
   (C8_disconnect_notifies stFull "b" "AAAAAAAA" "u-b" ["a", "b", "c"]
     (by decide) (by decide) (by decide) (by decide) (by decide)).1 "a"
     (by decide) (by decide)⟩

/-- C9: disconnect cleanup is idempotent.  After one run of the
disconnect handler, a second run for the same connection id returns
the state unchanged and emits nothing: both pops find the key absent
and the room branch is skipped. -/
theorem C9_disconnect_idempotent (st : ServerState) (sid : String) :
    disconnect (disconnect st sid).1 sid = ((disconnect st sid).1, []) := by
  have hs2u : (disconnect st sid).1.sid_to_user = derase st.sid_to_user sid := by
    cases h1 : dget st.sid_to_room sid with
    | none => simp [disconnect_eq_none h1]
    | some rid =>
        cases h2 : dget st.rooms rid with
        | none => simp [disconnect_eq_dangling h1 h2]
        | some users => simp [disconnect_eq_some h1 h2]
  have hs2r : (disconnect st sid).1.sid_to_room = derase st.sid_to_room sid := by
    cases h1 : dget st.sid_to_room sid with
    | none => simp [disconnect_eq_none h1]
    | some rid =>
        cases h2 : dget st.rooms rid with
        | none => simp [disconnect_eq_dangling h1 h2]
        | some users => simp [disconnect_eq_some h1 h2]
  have hnone : dget (disconnect st sid).1.sid_to_room sid = none := by
    rw [hs2r, dget_derase_self]
  rw [disconnect_eq_none hnone, hs2u, hs2r, derase_derase, derase_derase, ← hs2u, ← hs2r]

/-- C6: each of the four join_room failures (blank room id after
normalization, unknown room, already a member, room full) emits
exactly one error event with its descriptive message to the sender
only and returns the shared state completely unchanged. -/
theorem C6_join_error_paths (st : ServerState) (sid raw : String) :
    (pyUpper (pyStrip raw) = "" →
      join_room st sid raw =
        (st, [⟨sid, "error", Payload.errorMsg "Room ID is required."⟩])) ∧
    (∀ rid, pyUpper (pyStrip raw) = rid → rid ≠ "" → dget st.rooms rid = none →
      join_room st sid raw = (st, [⟨sid, "error", Payload.errorMsg (msgNotFound rid)⟩])) ∧
    (∀ rid users, pyUpper (pyStrip raw) = rid → rid ≠ "" → dget st.rooms rid = some users →
      sid ∈ users →
      join_room st sid raw =
        (st, [⟨sid, "error", Payload.errorMsg "You are already in this room."⟩])) ∧
    (∀ rid users, pyUpper (pyStrip raw) = rid → rid ≠ "" → dget st.rooms rid = some users →
      sid ∉ users → MAX_USERS_PER_ROOM ≤ users.length →
      join_room st sid raw = (st, [⟨sid, "error", Payload.errorMsg "Room is full."⟩])) :=
  ⟨fun h => join_room_eq_empty h,
   fun _ h h1 h2 => join_room_eq_notfound h h1 h2,
   fun _ _ h h1 h2 h3 => join_room_eq_already h h1 h2 h3,
   fun _ _ h h1 h2 h3 h4 => join_room_eq_full h h1 h2 h3 h4⟩

/-- C6 witness: a blank room id and an unknown room id each produce a
single sender-only error on the concrete state, leaving it intact. -/
theorem C6_join_error_paths_witness :
    join_room stFull "z" "   " =
      (stFull, [⟨"z", "error", Payload.errorMsg "Room ID is required."⟩]) ∧
    join_room stFull "z" "nope" =
      (stFull, [⟨"z", "error", Payload.errorMsg (msgNotFound "NOPE")⟩]) :=
  ⟨(C6_join_error_paths stFull "z" "   ").1 (by decide),
   (C6_join_error_paths stFull "z" "nope").2.1 "NOPE" (by decide) (by decide) (by decide)⟩

/-- C2 amended: every room along every operation sequence from the
empty state holds at most 3 members, and a join_room request from a
connection that is not already a member of a 3-member room fails with
the RoomFull error, leaving all state unchanged.  (A request from a
connection that already belongs to the full room fails earlier, with
AlreadyMember; see the counterexample.) -/
theorem C2_capacity_and_room_full :
    (∀ ops r us, dget (run emptyState ops).rooms r = some us →
      us.length ≤ MAX_USERS_PER_ROOM) ∧
    (∀ (st : ServerState) (sid raw rid : String) (users : List String),
      pyUpper (pyStrip raw) = rid → rid ≠ "" → dget st.rooms rid = some users →
      sid ∉ users → users.length = MAX_USERS_PER_ROOM →
      join_room st sid raw = (st, [⟨sid, "error", Payload.errorMsg "Room is full."⟩])) := by
  constructor
  · intro ops r us h
    exact (roomsWF_run ops emptyState roomsWF_empty).cap r us h
  · intro st sid raw rid users h h1 h2 h3 h4
    exact join_room_eq_full h h1 h2 h3 (le_of_eq h4.symm)

/-- C2 counterexample: on the reachable state whose room AAAAAAAA has
exactly 3 members, a join_room request from member a fails with the
AlreadyMember message, not with RoomFull, so the claim as stated (any
join_room request on a 3-member room fails with RoomFull) is false. -/
theorem C2_member_join_on_full_room_not_roomfull :
    (dget stFull.rooms "AAAAAAAA").map List.length = some MAX_USERS_PER_ROOM ∧
    join_room stFull "a" "AAAAAAAA" =
      (stFull, [⟨"a", "error", Payload.errorMsg "You are already in this room."⟩]) ∧
    Payload.errorMsg "You are already in this room." ≠ Payload.errorMsg "Room is full." :=
  ⟨by decide, by decide, by decide⟩

/-- C2 witness: the fourth distinct connection d is refused with
RoomFull on the concrete 3-member room and the state is unchanged. -/
theorem C2_capacity_and_room_full_witness :
    dget (run emptyState fullRoomTrace).rooms "AAAAAAAA" = some ["a", "b", "c"] ∧
    (["a", "b", "c"] : List String).length ≤ MAX_USERS_PER_ROOM ∧
    join_room stFull "d" "AAAAAAAA" =
      (stFull, [⟨"d", "error", Payload.errorMsg "Room is full."⟩]) :=
  ⟨by decide,
   C2_capacity_and_room_full.1 fullRoomTrace "AAAAAAAA" ["a", "b", "c"] (by decide),
   C2_capacity_and_room_full.2 stFull "d" "AAAAAAAA" "AAAAAAAA" ["a", "b", "c"]
     (by decide) (by decide) (by decide) (by decide) (by decide)⟩

/-- C3: after any sequence of operations from the empty state, no room
in the store has an empty member list: every removal site deletes the
room in the same operation when the list becomes empty. -/
theorem C3_no_empty_rooms (ops : List Op) (r : String) (us : List String)
    (h : dget (run emptyState ops).rooms r = some us) : us ≠ [] :=
  (roomsWF_run ops emptyState roomsWF_empty).ne r us h

/-- C3 witness: the room built by the concrete trace is present with a
non-empty member list. -/
theorem C3_no_empty_rooms_witness :
    dget (run emptyState fullRoomTrace).rooms "AAAAAAAA" = some ["a", "b", "c"] ∧
    (["a", "b", "c"] : List String) ≠ [] :=
  ⟨by decide, C3_no_empty_rooms fullRoomTrace "AAAAAAAA" ["a", "b", "c"] (by decide)⟩

/-- C1 amended: for every sequence of operations from the empty state
in which each create_room consumes a generator-plausible room id that
is not already in the store (uuid collisions excluded), the
bidirectional membership invariant holds after the sequence, and every
connection is in the member list of at most one room.  Since every
prefix of such a sequence is again such a sequence, the invariant
holds after each operation. -/
theorem C1_bidirectional_invariant (ops : List Op)
    (hf : freshTrace emptyState ops = true) :
    Bidir (run emptyState ops) ∧
    (∀ c r1 r2 us1 us2, dget (run emptyState ops).rooms r1 = some us1 →
      dget (run emptyState ops).rooms r2 = some us2 → c ∈ us1 → c ∈ us2 → r1 = r2) := by
  have hInv := inv_run ops emptyState inv_empty hf
  refine ⟨hInv.bidir, ?_⟩
  intro c r1 r2 us1 us2 h1 h2 hc1 hc2
  have e1 := (hInv.bidir c r1).mpr ⟨us1, h1, hc1⟩
  have e2 := (hInv.bidir c r2).mpr ⟨us2, h2, hc2⟩
  rw [e1] at e2
  exact Option.some_injective _ e2

/-- C1 witness: the concrete collision-free trace satisfies the
bidirectional invariant at its final state. -/
theorem C1_bidirectional_invariant_witness :
    freshTrace emptyState fullRoomTrace = true ∧ Bidir (run emptyState fullRoomTrace) :=
  ⟨by decide, (C1_bidirectional_invariant fullRoomTrace (by decide)).1⟩

/-- C1 counterexample: a generator-plausible trace of two create_room
operations whose generated ids collide.  The second create overwrites
room AAAAAAAA, after which connection c2 is still associated to
AAAAAAAA but absent from its member list: the bidirectional invariant
fails, so the claim does not hold for every operation sequence. -/
theorem C1_collision_breaks_invariant :
    genTrace emptyState collisionTrace = true ∧
    ¬ Bidir (run emptyState collisionTrace) := by
  refine ⟨by decide, ?_⟩
  intro hb
  obtain ⟨us, hus, hmem⟩ := (hb "c2" "AAAAAAAA").mp (by decide)
  have h1 : dget (run emptyState collisionTrace).rooms "AAAAAAAA" = some ["c1"] := by decide
  rw [h1] at hus
  rw [← Option.some_injective _ hus] at hmem
  exact absurd hmem (by decide)

/-- C5: evaluation of create_room at the failing input.  Room AAAAAAAA
already exists holding c2, the generator returns the format-valid but
colliding id AAAAAAAA for c1, and create_room assigns it anyway:
the room store entry is replaced by the singleton c1 while c2 keeps
its association, because the code never existence-checks the id. -/
theorem C5_create_room_overwrites_on_collision :
    dget stC5.rooms "AAAAAAAA" = some ["c2"] ∧
    isGenRoomId "AAAAAAAA" = true ∧
    dget (create_room stC5 "c1" "AAAAAAAA").1.rooms "AAAAAAAA" = some ["c1"] ∧
    dget (create_room stC5 "c1" "AAAAAAAA").1.sid_to_room "c2" = some "AAAAAAAA" :=
  ⟨by decide, by decide, by decide, by decide⟩

end CinemaSync
